import Mathlib

/-
Verification of the drift-analysis engine of tfskel.

This file shallowly embeds the Go sources under internal/drift
(version_analyzer.go, formatter.go, plan_formatter.go, plan_models.go,
plan_parser.go, types.go) and proves or refutes the frozen claims about
them.  Pure Go functions become Lean functions; Go maps that the claims
only read pointwise become association lists; Go int becomes Int (the
counters involved stay far from 64-bit overflow, and the exit-code and
summary claims quantify over arbitrary field values exactly as Go struct
literals would allow); external libraries (HCL, encoding/json) are
abstracted as explicit inputs describing their outcome, while every line
of repository logic that consumes those outcomes is translated.
-/

/-! ## Data model (types.go) -/

/-- DriftStatus mirrors the Go string-enum
    in-sync / minor-drift / major-drift / missing / not-managed. -/
inductive DriftStatus where
  | inSync
  | minorDrift
  | majorDrift
  | missing
  | notManaged
deriving DecidableEq, Repr

/-- ProviderVer holds provider version details (types.go). -/
structure ProviderVer where
  source : String
  version : String
deriving DecidableEq, Repr

/-- VersionInfo represents version information extracted from one file
    (types.go).  The Go field `Providers map[string]ProviderVer` is an
    association list here (one entry per provider name); the Go field
    `ParseError error` keeps only its presence, since no claim inspects
    the message. -/
structure VersionInfo where
  filePath : String
  terraformVersion : String
  providers : List (String × ProviderVer)
  parseError : Bool
deriving DecidableEq, Repr

/-- ProviderDrift represents drift for a specific provider (types.go). -/
structure ProviderDrift where
  name : String
  source : String
  expected : String
  actual : String
  driftStatus : DriftStatus
deriving DecidableEq, Repr

/-- DriftRecord represents a single drift finding (types.go). -/
structure DriftRecord where
  filePath : String
  terraformExpected : String
  terraformActual : String
  terraformDriftStatus : DriftStatus
  providers : List ProviderDrift
  hasDrift : Bool
deriving DecidableEq, Repr

/-- DriftSummary provides aggregated statistics (types.go).  The two
    histogram maps version-string -> count and provider -> version ->
    count are association lists. -/
structure DriftSummary where
  totalFiles : Int
  filesInSync : Int
  filesWithMinorDrift : Int
  filesWithMajorDrift : Int
  filesWithErrors : Int
  terraformVersions : List (String × Int)
  providerVersions : List (String × List (String × Int))
deriving DecidableEq, Repr

/-- DriftReport is the complete analysis result (types.go).  The Go field
    `ScannedAt time.Time` is wall-clock input outside the model and is
    dropped; no claim mentions it. -/
structure DriftReport where
  scanRoot : String
  totalFiles : Int
  filesWithDrift : Int
  records : List DriftRecord
  summary : DriftSummary
deriving DecidableEq, Repr

/-! ## Go standard-library helpers used by extractVersionNumbers -/

/-- Characters the Go regexp class \s matches: [\t\n\f\r ]. -/
def isGoRegexpSpace (c : Char) : Bool :=
  c == '\t' || c == '\n' || c == '\x0c' || c == '\r' || c == ' '

/-- Characters of the Go regexp class [~>=<!\s] used to strip leading
    constraint operators. -/
def isConstraintOpChar (c : Char) : Bool :=
  c == '~' || c == '>' || c == '=' || c == '<' || c == '!' || isGoRegexpSpace c

/-- Go strings.TrimSpace, restricted to the ASCII whitespace that version
    constraint strings can contain. -/
def goTrimSpace (s : String) : String :=
  String.mk (((s.data.dropWhile isGoRegexpSpace).reverse.dropWhile isGoRegexpSpace).reverse)

/-- Value of a digit list read in base 10. -/
def digitsToNat (l : List Char) : Nat :=
  l.foldl (fun acc c => acc * 10 + (c.toNat - 48)) 0

/-- Go strconv.Atoi on the characters of the argument: optional sign, then
    a nonempty run of digits, failing on anything else and on 64-bit int
    overflow. -/
def goAtoi (cs : List Char) : Option Int :=
  let signed : Int × List Char :=
    match cs with
    | c :: rest =>
      if c == '+' then (1, rest)
      else if c == '-' then (-1, rest)
      else (1, cs)
    | [] => (1, cs)
  let sign := signed.1
  let digits := signed.2
  if digits.isEmpty then none
  else if digits.all Char.isDigit then
    let v : Int := sign * (digitsToNat digits : Int)
    if v < -(2 ^ 63) || v > 2 ^ 63 - 1 then none else some v
  else none

/-- Go strings.Split on the separator ".", over character lists.  Splitting
    the empty string yields one empty field, as in Go. -/
def splitOnDot : List Char → List (List Char)
  | [] => [[]]
  | c :: rest =>
    if c == '.' then [] :: splitOnDot rest
    else
      match splitOnDot rest with
      | h :: t => (c :: h) :: t
      | [] => [[c]]

/-! ## Version constraint comparison (version_analyzer.go) -/

/-- Model of extractVersionNumbers: trim whitespace, strip the leading
    run of constraint-operator characters, split on '.', and Atoi the
    first two components, with -1 as the unparseable sentinel. -/
def extractVersionNumbers (version : String) : Int × Int :=
  let v := goTrimSpace version
  let parts := splitOnDot (v.data.dropWhile isConstraintOpChar)
  let major : Int :=
    match parts with
    | p :: _ =>
      match goAtoi p with
      | some m => m
      | none => -1
    | [] => -1
  let minor : Int :=
    match parts with
    | _ :: p :: _ =>
      match goAtoi p with
      | some m => m
      | none => -1
    | _ => -1
  (major, minor)

/-- Model of compareSemverConstraints: sentinel majors mean major drift,
    then compare majors, then minors, then exact spelling. -/
def compareSemverConstraints (expected actual : String) : DriftStatus :=
  let e := extractVersionNumbers expected
  let a := extractVersionNumbers actual
  if e.1 = -1 ∨ a.1 = -1 then .majorDrift
  else if e.1 ≠ a.1 then .majorDrift
  else if e.2 ≠ a.2 then .minorDrift
  else if expected ≠ actual then .minorDrift
  else .inSync

/-- Model of compareTerraformVersion. -/
def compareTerraformVersion (expected actual : String) : DriftStatus :=
  if actual = "" then .missing
  else if expected = actual then .inSync
  else compareSemverConstraints expected actual

/-- Model of compareProviderVersion. -/
def compareProviderVersion (expected actual : String) : DriftStatus :=
  if expected = "" then .notManaged
  else if actual = "" then .missing
  else if expected = actual then .inSync
  else compareSemverConstraints expected actual

/-! ## Baseline configuration (internal/config/config.go, drift-relevant part) -/

/-- AWSProvider from config.go; the drift analyzer reads only Version, the
    account-mapping and region fields are untouched by it and omitted. -/
structure AWSProvider where
  version : String
deriving DecidableEq, Repr

/-- Provider from config.go: the provider section, AWS optional (nilable
    pointer). -/
structure Provider where
  aws : Option AWSProvider
deriving DecidableEq, Repr

/-- Config from config.go, restricted to the fields the drift analyzer
    dereferences. -/
structure Config where
  terraformVersion : String
  provider : Option Provider
deriving DecidableEq, Repr

/-! ## Drift analysis (version_analyzer.go) -/

/-- ProviderDrift entry built for one provider inside analyzeVersionInfo:
    the expected constraint is the configured AWS constraint for the
    provider named "aws" when Provider and Provider.AWS are non-nil, and
    empty otherwise. -/
def providerDriftFor (cfg : Config) (providerName : String) (providerVer : ProviderVer) : ProviderDrift :=
  let expected : String :=
    if providerName = "aws" then
      match cfg.provider with
      | some p =>
        match p.aws with
        | some a => a.version
        | none => ""
      | none => ""
    else ""
  { name := providerName
    source := providerVer.source
    expected := expected
    actual := providerVer.version
    driftStatus := compareProviderVersion expected providerVer.version }

/-- Loop body of analyzeVersionInfo for one provider entry: build its
    drift, raise hasDrift on any status outside in-sync/not-managed, and
    append the drift to the record. -/
def providerStep (cfg : Config) (record : DriftRecord) (pv : String × ProviderVer) : DriftRecord :=
  let drift := providerDriftFor cfg pv.1 pv.2
  let record :=
    if drift.driftStatus ≠ .inSync ∧ drift.driftStatus ≠ .notManaged then
      { record with hasDrift := true }
    else record
  { record with providers := record.providers ++ [drift] }

/-- Model of analyzeVersionInfo: build the base record with the terraform
    comparison, loop over the providers with providerStep, then raise
    hasDrift if the terraform status is not in-sync. -/
def analyzeVersionInfo (cfg : Config) (info : VersionInfo) : DriftRecord :=
  let base : DriftRecord :=
    { filePath := info.filePath
      terraformExpected := cfg.terraformVersion
      terraformActual := info.terraformVersion
      terraformDriftStatus := compareTerraformVersion cfg.terraformVersion info.terraformVersion
      providers := []
      hasDrift := false }
  let record := info.providers.foldl (providerStep cfg) base
  if record.terraformDriftStatus ≠ .inSync then { record with hasDrift := true }
  else record

/-- Model of categorizeDriftSeverity: any major-drift status (core tool
    first, then the providers) puts the file in the major bucket,
    otherwise the minor bucket. -/
def categorizeDriftSeverity (summary : DriftSummary) (record : DriftRecord) : DriftSummary :=
  let hasMajor : Bool :=
    if record.terraformDriftStatus = .majorDrift then true
    else record.providers.any (fun pd => pd.driftStatus = .majorDrift)
  if hasMajor then
    { summary with filesWithMajorDrift := summary.filesWithMajorDrift + 1 }
  else
    { summary with filesWithMinorDrift := summary.filesWithMinorDrift + 1 }

/-- Go `m[k]++` on a string-to-int map modelled as an association list:
    increment the existing entry or insert the key at count 1. -/
def bumpCount : List (String × Int) → String → List (String × Int)
  | [], k => [(k, 1)]
  | (k0, n) :: rest, k =>
    if k0 = k then (k0, n + 1) :: rest else (k0, n) :: bumpCount rest k

/-- Go `m[p][v]++` with nil-map initialization on the nested provider
    histogram. -/
def bumpProviderCount : List (String × List (String × Int)) → String → String → List (String × List (String × Int))
  | [], p, ver => [(p, [(ver, 1)])]
  | (p0, m) :: rest, p, ver =>
    if p0 = p then (p0, bumpCount m ver) :: rest
    else (p0, m) :: bumpProviderCount rest p ver

/-- One iteration of the loop body of Analyze: a record with a parse
    error only bumps the error counter; otherwise the file is classified,
    appended, bucketed (drift via categorizeDriftSeverity, else in-sync),
    and the two version histograms are updated. -/
def analyzeStep (cfg : Config) (report : DriftReport) (info : VersionInfo) : DriftReport :=
  if info.parseError then
    { report with summary :=
        { report.summary with filesWithErrors := report.summary.filesWithErrors + 1 } }
  else
    let record := analyzeVersionInfo cfg info
    let report := { report with records := report.records ++ [record] }
    let report :=
      if record.hasDrift then
        { report with
            filesWithDrift := report.filesWithDrift + 1
            summary := categorizeDriftSeverity report.summary record }
      else
        { report with summary :=
            { report.summary with filesInSync := report.summary.filesInSync + 1 } }
    let report :=
      if info.terraformVersion ≠ "" then
        { report with summary :=
            { report.summary with
                terraformVersions := bumpCount report.summary.terraformVersions info.terraformVersion } }
      else report
    { report with summary :=
        { report.summary with
            providerVersions := info.providers.foldl
              (fun m pv => bumpProviderCount m pv.1 pv.2.version)
              report.summary.providerVersions } }

/-- Model of Analyzer.Analyze: initialize the report with the input length
    as total file count and fold the loop body over the inputs. -/
def Analyze (cfg : Config) (scanRoot : String) (versionInfos : List VersionInfo) : DriftReport :=
  versionInfos.foldl (analyzeStep cfg)
    { scanRoot := scanRoot
      totalFiles := (versionInfos.length : Int)
      filesWithDrift := 0
      records := []
      summary :=
        { totalFiles := (versionInfos.length : Int)
          filesInSync := 0
          filesWithMinorDrift := 0
          filesWithMajorDrift := 0
          filesWithErrors := 0
          terraformVersions := []
          providerVersions := [] } }

/-- Model of DriftReport.HasCriticalDrift. -/
def DriftReport.HasCriticalDrift (r : DriftReport) : Bool :=
  r.summary.filesWithMajorDrift > 0

/-- Model of DriftReport.ExitCode: 2 on any parse error, else 1 on any
    drift, else 0. -/
def DriftReport.ExitCode (r : DriftReport) : Int :=
  if r.summary.filesWithErrors > 0 then 2
  else if r.filesWithDrift > 0 then 1
  else 0

/-! ## Plan analysis data model (plan_models.go) -/

/-- Severity mirrors the Go string-enum low / medium / high / critical. -/
inductive Severity where
  | low
  | medium
  | high
  | critical
deriving DecidableEq, Repr

/-- AnalyzedResource represents a resource with analyzed change
    information (plan_models.go). -/
structure AnalyzedResource where
  address : String
  type : String
  name : String
  provider : String
  actions : List String
  actionString : String
  severity : Severity
  moduleAddress : String
deriving DecidableEq, Repr

/-- PlanAnalysis represents the analyzed plan results (plan_models.go);
    the four grouping maps are association lists. -/
structure PlanAnalysis where
  totalChanges : Int
  additions : Int
  modifications : Int
  deletions : Int
  replacements : Int
  resourceChanges : List AnalyzedResource
  terraformVersion : String
  hasChanges : Bool
  byType : List (String × Int)
  byModule : List (String × Int)
  bySeverity : List (String × Int)
  byAction : List (String × Int)
deriving DecidableEq, Repr

/-- Model of PlanAnalysis.ExitCode: 2 on any deletion or replacement,
    else 1 on any change, else 0. -/
def PlanAnalysis.ExitCode (a : PlanAnalysis) : Int :=
  if a.deletions > 0 ∨ a.replacements > 0 then 2
  else if a.totalChanges > 0 then 1
  else 0

/-! ## Severity classification (plan_formatter.go) -/

/-- Model of containsAction: linear scan for an action string. -/
def containsAction : List String → String → Bool
  | [], _ => false
  | a :: rest, action => if a = action then true else containsAction rest action

/-- Model of isCriticalResource: linear scan of the analyzer's critical
    resource type list, taken here as the first argument. -/
def isCriticalResource : List String → String → Bool
  | [], _ => false
  | t :: rest, resourceType =>
    if resourceType = t then true else isCriticalResource rest resourceType

/-- Model of determineSeverity: delete is critical; update on a critical
    resource type is high; other updates are medium; the remaining cases
    (the explicit create check and the fallthrough) are low. -/
def determineSeverity (criticalResourceTypes : List String) (actions : List String) (resourceType : String) : Severity :=
  if containsAction actions "delete" then .critical
  else if isCriticalResource criticalResourceTypes resourceType && containsAction actions "update" then .high
  else if containsAction actions "update" then .medium
  else if containsAction actions "create" then .low
  else .low

/-! ## Plan file parsing (plan_parser.go) -/

/-- TerraformPlan restricted to the fields ParsePlanFile inspects; the
    resource-change payload is carried through untouched by the parser
    and is not needed by the parsing claims. -/
structure TerraformPlan where
  formatVersion : String
  terraformVersion : String
deriving DecidableEq, Repr

/-- Error classes ParsePlanFile can report after a successful read. -/
inductive PlanParseError where
  | binaryFormat
  | invalidFormat
  | missingFormatVersion
deriving DecidableEq, Repr

/-- Bytes the binary-format scan in ParsePlanFile skips:
    space, tab, carriage return, newline. -/
def isPlanWhitespaceByte (b : Nat) : Bool :=
  b == 32 || b == 9 || b == 13 || b == 10

/-- Offset past a UTF-8 byte-order mark when the data starts with one. -/
def bomOffset (data : List Nat) : Nat :=
  match data with
  | b0 :: b1 :: b2 :: _ => if b0 == 0xEF && b1 == 0xBB && b2 == 0xBF then 3 else 0
  | _ => 0

/-- First byte of the data that is not plan whitespace, if any. -/
def firstNonWhitespaceByte (data : List Nat) : Option Nat :=
  (data.dropWhile isPlanWhitespaceByte).head?

/-- Binary-format scan of ParsePlanFile: on nonempty data, look at the
    first non-whitespace byte after an optional byte-order mark; the data
    looks binary when such a byte exists and is not 123, the brace that
    opens a JSON object. -/
def looksBinary (data : List Nat) : Bool :=
  if data.length > 0 then
    match firstNonWhitespaceByte (data.drop (bomOffset data)) with
    | some b => b != 123
    | none => false
  else false

/-- Model of ParsePlanFile on file contents already read: the outcome of
    the external encoding/json unmarshal on those bytes is passed in as
    `decoded` (none when unmarshalling fails).  The binary-format scan
    over the bytes is the repository's own logic and is fully modelled. -/
def ParsePlanFile (data : List Nat) (decoded : Option TerraformPlan) : Except PlanParseError TerraformPlan :=
  if looksBinary data then .error .binaryFormat
  else
    match decoded with
    | none => .error .invalidFormat
    | some plan =>
      if plan.formatVersion = "" then .error .missingFormatVersion
      else .ok plan

/-! ## Directory scan (formatter.go, Detector section) -/

/-- HclOutcome abstracts what reading one file and handing it to the
    external HCL library produces: whether os.ReadFile failed, whether the
    diagnostics carry errors, whether a non-nil hclsyntax body came back,
    and the required_version / required_providers values the block
    extraction recovers from that body. -/
structure HclOutcome where
  readError : Bool
  diagsHasErrors : Bool
  bodyAvailable : Bool
  terraformVersion : String
  providers : List (String × ProviderVer)
deriving DecidableEq, Repr

/-- Model of parseWithHCL: a read failure aborts with the error; parse
    diagnostics are recorded on the VersionInfo without failing, and the
    block extraction still runs on the (possibly partial) body. -/
def parseWithHCL (relPath : String) (outcome : HclOutcome) : Except Unit VersionInfo :=
  if outcome.readError then .error ()
  else
    let info : VersionInfo :=
      { filePath := relPath
        terraformVersion := ""
        providers := []
        parseError := outcome.diagsHasErrors }
    if outcome.bodyAvailable then
      .ok { info with
              terraformVersion := outcome.terraformVersion
              providers := outcome.providers }
    else .ok info

/-- FileEntry is one regular-file visit of the WalkDir traversal, carrying
    the directory key Go computes as filepath.Dir of the relative path,
    the base name, and the abstracted read/parse outcome.  Traversal order
    is the order of the entry list, so claims about order quantify over
    it. -/
structure FileEntry where
  dir : String
  name : String
  outcome : HclOutcome
deriving DecidableEq, Repr

/-- Relative path of an entry, as filepath.Rel produces it. -/
def relPathOf (e : FileEntry) : String :=
  if e.dir = "." then e.name else e.dir ++ "/" ++ e.name

/-- Go strings.HasSuffix(name, ".tf"). -/
def endsInDotTf (name : String) : Bool :=
  match name.data.reverse with
  | f :: t :: d :: _ => f == 'f' && t == 't' && d == '.'
  | _ => false

/-- Condition under which ScanDirectory appends a parsed VersionInfo. -/
def hasVersionData (vi : VersionInfo) : Bool :=
  vi.terraformVersion != "" || !vi.providers.isEmpty

/-- One file visit of the ScanDirectory walk over the accumulated
    (results, seenFiles) state: skip non-.tf names; skip non-versions.tf
    names once the directory is marked seen; on a read error append an
    error-only record without marking the directory; on a parse result
    append it and mark the directory only when it carries version data. -/
def scanStep (acc : List VersionInfo × List String) (e : FileEntry) : List VersionInfo × List String :=
  let results := acc.1
  let seenFiles := acc.2
  if !endsInDotTf e.name then acc
  else if seenFiles.contains e.dir && e.name != "versions.tf" then acc
  else
    match parseWithHCL (relPathOf e) e.outcome with
    | .error _ =>
      (results ++ [{ filePath := relPathOf e
                     terraformVersion := ""
                     providers := []
                     parseError := true }], seenFiles)
    | .ok versionInfo =>
      if hasVersionData versionInfo then
        (results ++ [versionInfo], e.dir :: seenFiles)
      else acc

/-- ScanDirectory walk from a given state. -/
def scanFold (acc : List VersionInfo × List String) (entries : List FileEntry) : List VersionInfo × List String :=
  entries.foldl scanStep acc

/-- Model of Detector.ScanDirectory: fold the per-file visit over the
    traversal, starting from no results and no seen directories, and
    return the VersionInfo list.  Hidden-directory pruning only removes
    entries from the traversal and is subsumed by quantifying over entry
    lists. -/
def ScanDirectory (entries : List FileEntry) : List VersionInfo :=
  (scanFold ([], []) entries).1


/-! ## Claim C3 -/

/-- Claim C3 as frozen is false at the equal pair ("", ""): the core-tool
    compare reports missing and the plugin compare reports not-managed,
    neither in-sync, because the empty-actual and empty-expected guards
    run before the equality check. -/
theorem C3_counterexample :
    compareTerraformVersion "" "" = DriftStatus.missing ∧
    compareProviderVersion "" "" = DriftStatus.notManaged ∧
    compareTerraformVersion "" "" ≠ DriftStatus.inSync ∧
    compareProviderVersion "" "" ≠ DriftStatus.inSync := by decide

/-- Claim C3 (amended): for every pair of equal nonempty constraint
    strings both compare operations return in-sync; on the equal pair of
    empty strings the core-tool compare returns missing and the plugin
    compare returns not-managed. -/
theorem C3_equal_nonempty_in_sync :
    (∀ s : String, s ≠ "" →
      compareTerraformVersion s s = DriftStatus.inSync ∧
      compareProviderVersion s s = DriftStatus.inSync) ∧
    compareTerraformVersion "" "" = DriftStatus.missing ∧
    compareProviderVersion "" "" = DriftStatus.notManaged := by
  refine ⟨fun s hs => ⟨?_, ?_⟩, by decide, by decide⟩
  · unfold compareTerraformVersion
    rw [if_neg hs, if_pos rfl]
  · unfold compareProviderVersion
    rw [if_neg hs, if_neg hs, if_pos rfl]

/-- Witness for C3_equal_nonempty_in_sync at the constraint "~> 1.16". -/
theorem C3_equal_nonempty_in_sync_witness :
    compareTerraformVersion "~> 1.16" "~> 1.16" = DriftStatus.inSync ∧
    compareProviderVersion "~> 1.16" "~> 1.16" = DriftStatus.inSync :=
  C3_equal_nonempty_in_sync.1 "~> 1.16" (by decide)

/-! ## Claim C4 -/

/-- Claim C4 as frozen is false at the pair ("1.x", "1.2"): the strings
    are distinct, nonempty, and the minor fragment "x" of the first fails
    to parse, yet both compares classify the pair as minor drift rather
    than major drift — only a failed MAJOR parse triggers the fail-safe. -/
theorem C4_counterexample :
    (extractVersionNumbers "1.x").2 = -1 ∧
    compareTerraformVersion "1.x" "1.2" = DriftStatus.minorDrift ∧
    compareProviderVersion "1.x" "1.2" = DriftStatus.minorDrift ∧
    compareTerraformVersion "1.x" "1.2" ≠ DriftStatus.majorDrift := by decide

/-- Claim C4 (amended): for every pair of distinct nonempty constraint
    strings, if the extracted leading MAJOR number of either string is
    the unparseable sentinel -1, both compare operations classify the
    pair as major drift; a minor fragment that fails to parse becomes the
    sentinel and participates in the ordinary minor comparison instead. -/
theorem C4_unparseable_major_is_major_drift (expected actual : String)
    (hne : expected ≠ actual) (he : expected ≠ "") (ha : actual ≠ "")
    (hfail : (extractVersionNumbers expected).1 = -1 ∨ (extractVersionNumbers actual).1 = -1) :
    compareTerraformVersion expected actual = DriftStatus.majorDrift ∧
    compareProviderVersion expected actual = DriftStatus.majorDrift := by
  have hsem : compareSemverConstraints expected actual = DriftStatus.majorDrift := by
    unfold compareSemverConstraints
    rw [if_pos hfail]
  refine ⟨?_, ?_⟩
  · unfold compareTerraformVersion
    rw [if_neg ha, if_neg hne]
    exact hsem
  · unfold compareProviderVersion
    rw [if_neg he, if_neg ha, if_neg hne]
    exact hsem

/-- Witness for C4_unparseable_major_is_major_drift at ("x.1", "1.2"),
    whose first major fragment "x" fails to parse. -/
theorem C4_unparseable_major_is_major_drift_witness :
    compareTerraformVersion "x.1" "1.2" = DriftStatus.majorDrift ∧
    compareProviderVersion "x.1" "1.2" = DriftStatus.majorDrift :=
  C4_unparseable_major_is_major_drift "x.1" "1.2" (by decide) (by decide) (by decide)
    (Or.inl (by decide))

/-! ## Claim C5 -/

/-- Linear scan containsAction decides list membership. -/
theorem containsAction_eq_decide (l : List String) (a : String) :
    containsAction l a = decide (a ∈ l) := by
  induction l with
  | nil => simp [containsAction]
  | cons x xs ih =>
    simp only [containsAction, ih, List.mem_cons]
    by_cases h : x = a
    · subst h; simp
    · simp only [if_neg h]
      have : (a = x) = False := by
        refine eq_false ?_
        exact fun hh => h hh.symm
      simp [this]

/-- Linear scan isCriticalResource decides list membership. -/
theorem isCriticalResource_eq_decide (l : List String) (t : String) :
    isCriticalResource l t = decide (t ∈ l) := by
  induction l with
  | nil => simp [isCriticalResource]
  | cons x xs ih =>
    simp only [isCriticalResource, ih, List.mem_cons]
    by_cases h : t = x
    · subst h; simp
    · simp [h]

/-- Severity rule as the spec words it, for the refinement claim C5:
    strict priority delete/critical-update/update/rest. -/
def severitySpec (criticalResourceTypes : List String) (actions : List String) (resourceType : String) : Severity :=
  if "delete" ∈ actions then .critical
  else if resourceType ∈ criticalResourceTypes ∧ "update" ∈ actions then .high
  else if "update" ∈ actions then .medium
  else .low

/-- Claim C5: for every action list, resource kind, and critical-resource
    set, determineSeverity assigns severity by the strict priority the
    spec states: delete is critical, else update on a critical kind is
    high, else update is medium, else low. -/
theorem C5_severity_strict_priority (crit actions : List String) (resourceType : String) :
    determineSeverity crit actions resourceType = severitySpec crit actions resourceType := by
  simp only [determineSeverity, severitySpec, containsAction_eq_decide,
    isCriticalResource_eq_decide]
  by_cases h1 : "delete" ∈ actions <;>
    by_cases h2 : resourceType ∈ crit <;>
      by_cases h3 : "update" ∈ actions <;>
        simp [h1, h2, h3]

/-! ## Claim C6 -/

/-- Claim C6: DriftReport.ExitCode is 2 exactly on a positive parse-error
    count (errors dominate drift), 1 exactly on no errors and a positive
    drift-file count, and 0 otherwise; PlanAnalysis.ExitCode is 2 exactly
    when deletions or replacements are positive, 1 exactly when neither is
    but changes exist, and 0 otherwise. -/
theorem C6_exit_code_contract :
    (∀ r : DriftReport,
      (r.ExitCode = 2 ↔ r.summary.filesWithErrors > 0) ∧
      (r.ExitCode = 1 ↔ r.summary.filesWithErrors ≤ 0 ∧ r.filesWithDrift > 0) ∧
      (r.ExitCode = 0 ↔ r.summary.filesWithErrors ≤ 0 ∧ r.filesWithDrift ≤ 0)) ∧
    (∀ a : PlanAnalysis,
      (a.ExitCode = 2 ↔ a.deletions > 0 ∨ a.replacements > 0) ∧
      (a.ExitCode = 1 ↔ (a.deletions ≤ 0 ∧ a.replacements ≤ 0) ∧ a.totalChanges > 0) ∧
      (a.ExitCode = 0 ↔ (a.deletions ≤ 0 ∧ a.replacements ≤ 0) ∧ a.totalChanges ≤ 0)) := by
  constructor
  · intro r
    by_cases he : r.summary.filesWithErrors > 0 <;>
      by_cases hd : r.filesWithDrift > 0 <;>
        refine ⟨?_, ?_, ?_⟩ <;> simp [DriftReport.ExitCode, he, hd] <;> omega
  · intro a
    by_cases hc : a.deletions > 0 ∨ a.replacements > 0 <;>
      by_cases ht : a.totalChanges > 0 <;>
        refine ⟨?_, ?_, ?_⟩ <;> simp [PlanAnalysis.ExitCode, hc, ht] <;> omega

/-! ## Claim C7 -/

/-- Sum of the four mutually exclusive per-file summary buckets. -/
def bucketTotal (s : DriftSummary) : Int :=
  s.filesInSync + s.filesWithMinorDrift + s.filesWithMajorDrift + s.filesWithErrors

/-- categorizeDriftSeverity bumps minor+major by one and leaves the other
    counters untouched. -/
theorem categorizeDriftSeverity_counts (s : DriftSummary) (r : DriftRecord) :
    (categorizeDriftSeverity s r).filesInSync = s.filesInSync ∧
    (categorizeDriftSeverity s r).filesWithErrors = s.filesWithErrors ∧
    (categorizeDriftSeverity s r).filesWithMinorDrift +
        (categorizeDriftSeverity s r).filesWithMajorDrift =
      s.filesWithMinorDrift + s.filesWithMajorDrift + 1 ∧
    (categorizeDriftSeverity s r).totalFiles = s.totalFiles := by
  unfold categorizeDriftSeverity
  by_cases h1 : r.terraformDriftStatus = DriftStatus.majorDrift <;>
    by_cases h2 : (r.providers.any fun pd => decide (pd.driftStatus = DriftStatus.majorDrift)) = true <;>
      simp [h1, h2] <;> omega

/-- One Analyze iteration adds exactly one file to the four buckets and
    keeps filesWithDrift in step with minor+major. -/
theorem analyzeStep_counts (cfg : Config) (rep : DriftReport) (info : VersionInfo) :
    bucketTotal (analyzeStep cfg rep info).summary = bucketTotal rep.summary + 1 ∧
    (analyzeStep cfg rep info).filesWithDrift -
        ((analyzeStep cfg rep info).summary.filesWithMinorDrift +
         (analyzeStep cfg rep info).summary.filesWithMajorDrift)
      = rep.filesWithDrift -
          (rep.summary.filesWithMinorDrift + rep.summary.filesWithMajorDrift) ∧
    (analyzeStep cfg rep info).totalFiles = rep.totalFiles := by
  obtain ⟨c1, c2, c3, c4⟩ :=
    categorizeDriftSeverity_counts rep.summary (analyzeVersionInfo cfg info)
  by_cases hp : info.parseError
  · simp [analyzeStep, hp, bucketTotal]
    ring
  · by_cases hd : (analyzeVersionInfo cfg info).hasDrift
    · by_cases ht : info.terraformVersion ≠ ""
      · simp [analyzeStep, hp, hd, ht, bucketTotal]
        omega
      · simp [analyzeStep, hp, hd, ht, bucketTotal]
        omega
    · by_cases ht : info.terraformVersion ≠ ""
      · simp [analyzeStep, hp, hd, ht, bucketTotal]
        ring
      · simp [analyzeStep, hp, hd, ht, bucketTotal]
        ring

/-- Fold form of the Analyze counting invariants. -/
theorem analyze_fold_counts (cfg : Config) (l : List VersionInfo) :
    ∀ rep : DriftReport,
      bucketTotal (l.foldl (analyzeStep cfg) rep).summary
          = bucketTotal rep.summary + (l.length : Int) ∧
      (l.foldl (analyzeStep cfg) rep).filesWithDrift -
          ((l.foldl (analyzeStep cfg) rep).summary.filesWithMinorDrift +
           (l.foldl (analyzeStep cfg) rep).summary.filesWithMajorDrift)
        = rep.filesWithDrift -
            (rep.summary.filesWithMinorDrift + rep.summary.filesWithMajorDrift) ∧
      (l.foldl (analyzeStep cfg) rep).totalFiles = rep.totalFiles := by
  induction l with
  | nil => intro rep; simp
  | cons x xs ih =>
    intro rep
    obtain ⟨s1, s2, s3⟩ := analyzeStep_counts cfg rep x
    obtain ⟨i1, i2, i3⟩ := ih (analyzeStep cfg rep x)
    simp only [List.foldl_cons]
    refine ⟨?_, ?_, ?_⟩
    · rw [i1, s1]; simp only [List.length_cons]; push_cast; ring
    · rw [i2, s2]
    · rw [i3, s3]

/-- Claim C7: for every baseline and input record list, the report of the
    Drift Analyzer satisfies totalFiles = FilesInSync + FilesWithMinorDrift
    + FilesWithMajorDrift + FilesWithErrors and FilesWithDrift =
    FilesWithMinorDrift + FilesWithMajorDrift. -/
theorem C7_report_totals (cfg : Config) (scanRoot : String) (infos : List VersionInfo) :
    (Analyze cfg scanRoot infos).totalFiles =
        (Analyze cfg scanRoot infos).summary.filesInSync +
        (Analyze cfg scanRoot infos).summary.filesWithMinorDrift +
        (Analyze cfg scanRoot infos).summary.filesWithMajorDrift +
        (Analyze cfg scanRoot infos).summary.filesWithErrors ∧
    (Analyze cfg scanRoot infos).filesWithDrift =
        (Analyze cfg scanRoot infos).summary.filesWithMinorDrift +
        (Analyze cfg scanRoot infos).summary.filesWithMajorDrift := by
  obtain ⟨h1, h2, h3⟩ := analyze_fold_counts cfg infos
    { scanRoot := scanRoot
      totalFiles := (infos.length : Int)
      filesWithDrift := 0
      records := []
      summary :=
        { totalFiles := (infos.length : Int)
          filesInSync := 0
          filesWithMinorDrift := 0
          filesWithMajorDrift := 0
          filesWithErrors := 0
          terraformVersions := []
          providerVersions := [] } }
  unfold Analyze
  simp only [bucketTotal] at h1 h2 h3
  constructor
  · omega
  · omega

/-! ## Claim C8 -/

/-- Claim C8: a DriftRecord with a major-drift status anywhere — core
    tool or any plugin — is counted by categorizeDriftSeverity in exactly
    one summary bucket, the major-drift bucket: the summary comes back
    with only filesWithMajorDrift incremented, never the minor bucket,
    never both. -/
theorem C8_any_major_buckets_major (s : DriftSummary) (r : DriftRecord)
    (h : r.terraformDriftStatus = DriftStatus.majorDrift ∨
         ∃ p ∈ r.providers, p.driftStatus = DriftStatus.majorDrift) :
    categorizeDriftSeverity s r =
      { s with filesWithMajorDrift := s.filesWithMajorDrift + 1 } := by
  have hmaj : (if r.terraformDriftStatus = DriftStatus.majorDrift then true
               else r.providers.any fun pd => decide (pd.driftStatus = DriftStatus.majorDrift)) = true := by
    rcases h with h | ⟨p, hp, hps⟩
    · simp [h]
    · by_cases ht : r.terraformDriftStatus = DriftStatus.majorDrift
      · simp [ht]
      · simp only [ht, if_false, List.any_eq_true, decide_eq_true_eq]
        exact ⟨p, hp, hps⟩
  unfold categorizeDriftSeverity
  rw [hmaj]
  rfl

/-- Witness for C8_any_major_buckets_major on a record holding one
    minor-drift plugin and one major-drift plugin: the file lands in the
    major bucket only. -/
theorem C8_any_major_buckets_major_witness :
    categorizeDriftSeverity
      { totalFiles := 1, filesInSync := 0, filesWithMinorDrift := 0, filesWithMajorDrift := 0,
        filesWithErrors := 0, terraformVersions := [], providerVersions := [] }
      { filePath := "envs/dev/versions.tf", terraformExpected := "~> 1.16",
        terraformActual := "~> 1.16", terraformDriftStatus := DriftStatus.inSync,
        providers := [
          { name := "aws", source := "hashicorp/aws", expected := "~> 6.0",
            actual := "~> 6.1", driftStatus := DriftStatus.minorDrift },
          { name := "google", source := "hashicorp/google", expected := "~> 5.0",
            actual := "~> 4.0", driftStatus := DriftStatus.majorDrift }],
        hasDrift := true }
    = { totalFiles := 1, filesInSync := 0, filesWithMinorDrift := 0, filesWithMajorDrift := 1,
        filesWithErrors := 0, terraformVersions := [], providerVersions := [] } := by
  exact C8_any_major_buckets_major _ _
    (Or.inr ⟨{ name := "google", source := "hashicorp/google", expected := "~> 5.0",
               actual := "~> 4.0", driftStatus := DriftStatus.majorDrift },
             by decide, by decide⟩)

/-! ## Claim C10 -/

/-- providerStep appends exactly the drift entry of its provider. -/
theorem providerStep_providers (cfg : Config) (r : DriftRecord) (pv : String × ProviderVer) :
    (providerStep cfg r pv).providers = r.providers ++ [providerDriftFor cfg pv.1 pv.2] := by
  simp only [providerStep]
  split <;> rfl

/-- Folding providerStep maps providerDriftFor across the provider list. -/
theorem foldl_providerStep_providers (cfg : Config) (l : List (String × ProviderVer)) :
    ∀ r : DriftRecord,
      (l.foldl (providerStep cfg) r).providers =
        r.providers ++ l.map (fun pv => providerDriftFor cfg pv.1 pv.2) := by
  induction l with
  | nil => intro r; simp
  | cons x xs ih =>
    intro r
    simp only [List.foldl_cons, List.map_cons]
    rw [ih, providerStep_providers]
    simp

/-- The provider entries of an analyzed record are exactly the
    providerDriftFor images of the input provider map. -/
theorem analyzeVersionInfo_providers (cfg : Config) (info : VersionInfo) :
    (analyzeVersionInfo cfg info).providers =
      info.providers.map (fun pv => providerDriftFor cfg pv.1 pv.2) := by
  simp only [analyzeVersionInfo]
  split <;> simp [foldl_providerStep_providers]

/-- Name field of a built provider drift entry. -/
theorem providerDriftFor_name (cfg : Config) (n : String) (pv : ProviderVer) :
    (providerDriftFor cfg n pv).name = n := by
  simp only [providerDriftFor]

/-- providerDriftFor leaves the expected constraint empty — and therefore
    classifies not-managed — for any provider that is not named aws, and
    for every provider when the configuration has no AWS section. -/
theorem providerDriftFor_unmanaged (cfg : Config) (n : String) (pv : ProviderVer)
    (h : n ≠ "aws" ∨ cfg.provider = none ∨ ∃ p, cfg.provider = some p ∧ p.aws = none) :
    (providerDriftFor cfg n pv).expected = "" ∧
    (providerDriftFor cfg n pv).driftStatus = DriftStatus.notManaged := by
  have hexp : (providerDriftFor cfg n pv).expected = "" := by
    unfold providerDriftFor
    by_cases hn : n = "aws"
    · rcases h with h | h | ⟨p, hp, hpa⟩
      · exact absurd hn h
      · simp [hn, h]
      · simp [hn, hp, hpa]
    · simp [hn]
  have hds : (providerDriftFor cfg n pv).driftStatus =
      compareProviderVersion (providerDriftFor cfg n pv).expected pv.version := rfl
  refine ⟨hexp, ?_⟩
  rw [hds, hexp]
  simp [compareProviderVersion]

/-- Claim C10: every plugin entry of an analyzed record whose name is not
    aws — and every plugin entry when the configuration carries no AWS
    provider section — has an empty expected constraint and is classified
    not-managed: the baseline only ever applies to the plugin named aws. -/
theorem C10_only_aws_managed (cfg : Config) (info : VersionInfo) (d : ProviderDrift)
    (hd : d ∈ (analyzeVersionInfo cfg info).providers)
    (h : d.name ≠ "aws" ∨ cfg.provider = none ∨ ∃ p, cfg.provider = some p ∧ p.aws = none) :
    d.expected = "" ∧ d.driftStatus = DriftStatus.notManaged := by
  rw [analyzeVersionInfo_providers] at hd
  obtain ⟨pv, hpv, hdef⟩ := List.mem_map.mp hd
  subst hdef
  apply providerDriftFor_unmanaged
  rcases h with h | h | h
  · left; rwa [providerDriftFor_name] at h
  · right; left; exact h
  · right; right; exact h

/-- Witness for C10_only_aws_managed: with no provider section configured,
    the analyzed google plugin entry is not-managed. -/
theorem C10_only_aws_managed_witness :
    ({ name := "google", source := "hashicorp/google", expected := "",
       actual := "~> 5.0", driftStatus := DriftStatus.notManaged } : ProviderDrift).expected = "" ∧
    ({ name := "google", source := "hashicorp/google", expected := "",
       actual := "~> 5.0", driftStatus := DriftStatus.notManaged } : ProviderDrift).driftStatus
      = DriftStatus.notManaged := by
  exact C10_only_aws_managed
    { terraformVersion := "~> 1.16", provider := none }
    { filePath := "main.tf", terraformVersion := "~> 1.16",
      providers := [("google", { source := "hashicorp/google", version := "~> 5.0" })],
      parseError := false }
    _ (by decide) (Or.inl (by decide))

/-! ## Claim C9 -/

/-- The binary-format scan fires exactly when a first non-whitespace byte
    exists after the optional byte-order mark and differs from the
    opening brace. -/
theorem looksBinary_iff (data : List Nat) :
    looksBinary data = true ↔
      ∃ b, firstNonWhitespaceByte (data.drop (bomOffset data)) = some b ∧ b ≠ 123 := by
  unfold looksBinary
  by_cases h : data.length > 0
  · rw [if_pos h]
    cases hfb : firstNonWhitespaceByte (data.drop (bomOffset data)) with
    | none => simp [hfb]
    | some b => simp [hfb]
  · rw [if_neg h]
    have hnil : data = [] := by
      cases data with
      | nil => rfl
      | cons x xs => simp at h
    subst hnil
    simp [firstNonWhitespaceByte]

/-- Claim C9: plan parsing fails with the binary-format error exactly when
    the first non-whitespace byte after the optional byte-order mark
    exists and is not the opening brace; otherwise it fails with the
    invalid-format error exactly when the JSON unmarshal fails; otherwise
    it fails with the not-recognized error exactly when the decoded
    document's format-version field is empty; and a plan comes back
    exactly when none of the failures applies, so no failure ever
    produces a plan. -/
theorem C9_plan_parse_classification (data : List Nat) (decoded : Option TerraformPlan) :
    (ParsePlanFile data decoded = .error .binaryFormat ↔
       ∃ b, firstNonWhitespaceByte (data.drop (bomOffset data)) = some b ∧ b ≠ 123) ∧
    (ParsePlanFile data decoded = .error .invalidFormat ↔
       ¬(∃ b, firstNonWhitespaceByte (data.drop (bomOffset data)) = some b ∧ b ≠ 123) ∧
       decoded = none) ∧
    (ParsePlanFile data decoded = .error .missingFormatVersion ↔
       ¬(∃ b, firstNonWhitespaceByte (data.drop (bomOffset data)) = some b ∧ b ≠ 123) ∧
       ∃ plan, decoded = some plan ∧ plan.formatVersion = "") ∧
    ((∃ plan, ParsePlanFile data decoded = .ok plan) ↔
       ¬(∃ b, firstNonWhitespaceByte (data.drop (bomOffset data)) = some b ∧ b ≠ 123) ∧
       ∃ plan, decoded = some plan ∧ plan.formatVersion ≠ "") := by
  have hB := looksBinary_iff data
  by_cases hb : looksBinary data = true
  · have hBtrue := hB.mp hb
    refine ⟨?_, ?_, ?_, ?_⟩ <;> simp [ParsePlanFile, hb, hBtrue]
  · have hnb : ¬∃ b, firstNonWhitespaceByte (data.drop (bomOffset data)) = some b ∧ b ≠ 123 :=
      fun hx => hb (hB.mpr hx)
    cases decoded with
    | none => refine ⟨?_, ?_, ?_, ?_⟩ <;> simp [ParsePlanFile, hb, hnb]
    | some plan =>
      by_cases hf : plan.formatVersion = ""
      · refine ⟨?_, ?_, ?_, ?_⟩ <;> simp [ParsePlanFile, hb, hnb, hf]
      · refine ⟨?_, ?_, ?_, ?_⟩ <;> simp [ParsePlanFile, hb, hnb, hf]

/-! ## Claim C1 -/

/-- Claim C1 as frozen is false: a file whose HCL parse reports
    diagnostics errors while the partial body still yields a
    required_version produces a record carrying BOTH the parse error and
    the recovered constraint — the extractor keeps partial results. -/
theorem C1_counterexample :
    ScanDirectory
      [{ dir := ".", name := "versions.tf",
         outcome := { readError := false, diagsHasErrors := true, bodyAvailable := true,
                      terraformVersion := "~> 1.16", providers := [] } }] =
      [{ filePath := "versions.tf", terraformVersion := "~> 1.16", providers := [],
         parseError := true }] := by decide

/-- parseWithHCL either aborts on a read error or returns the record
    carrying the diagnostics flag and the body extraction results. -/
theorem parseWithHCL_shape (p : String) (o : HclOutcome) :
    (o.readError = true ∧ parseWithHCL p o = .error ()) ∨
    (o.readError = false ∧ parseWithHCL p o = .ok
      { filePath := p
        terraformVersion := if o.bodyAvailable then o.terraformVersion else ""
        providers := if o.bodyAvailable then o.providers else []
        parseError := o.diagsHasErrors }) := by
  by_cases h : o.readError <;> by_cases hb : o.bodyAvailable <;>
    simp [parseWithHCL, h, hb]

/-- One scan visit either leaves the results untouched or appends exactly
    one record, and an appended record carries a parse error or version
    data. -/
theorem scanStep_shape (acc : List VersionInfo × List String) (e : FileEntry) :
    (scanStep acc e).1 = acc.1 ∨
    ∃ vi, (scanStep acc e).1 = acc.1 ++ [vi] ∧
      (vi.parseError = true ∨ vi.terraformVersion ≠ "" ∨ vi.providers ≠ []) := by
  by_cases h1 : endsInDotTf e.name
  case neg => left; simp [scanStep, h1]
  by_cases h2 : e.dir ∈ acc.2 ∧ ¬e.name = "versions.tf"
  case pos => left; simp [scanStep, h1, h2]
  rcases parseWithHCL_shape (relPathOf e) e.outcome with ⟨hre, heq⟩ | ⟨hre, heq⟩
  · right
    refine ⟨{ filePath := relPathOf e, terraformVersion := "", providers := [],
              parseError := true }, ?_, Or.inl rfl⟩
    simp [scanStep, h1, h2, heq]
  · by_cases h5 : hasVersionData
      { filePath := relPathOf e
        terraformVersion := if e.outcome.bodyAvailable then e.outcome.terraformVersion else ""
        providers := if e.outcome.bodyAvailable then e.outcome.providers else []
        parseError := e.outcome.diagsHasErrors }
    · right
      refine ⟨{ filePath := relPathOf e
                terraformVersion := if e.outcome.bodyAvailable then e.outcome.terraformVersion else ""
                providers := if e.outcome.bodyAvailable then e.outcome.providers else []
                parseError := e.outcome.diagsHasErrors }, ?_, ?_⟩
      · simp [scanStep, h1, h2, heq, h5]
      · right
        simpa [hasVersionData, bne_iff_ne, List.isEmpty_iff] using h5
    · left
      simp [scanStep, h1, h2, heq, h5]

/-- Every record the scan emits carries a parse error or version data,
    assuming the accumulated results already do. -/
theorem scanFold_error_or_data (entries : List FileEntry) :
    ∀ acc : List VersionInfo × List String,
      (∀ vi ∈ acc.1, vi.parseError = true ∨ vi.terraformVersion ≠ "" ∨ vi.providers ≠ []) →
      ∀ vi ∈ (scanFold acc entries).1,
        vi.parseError = true ∨ vi.terraformVersion ≠ "" ∨ vi.providers ≠ [] := by
  induction entries with
  | nil => intro acc hacc vi hvi; exact hacc vi hvi
  | cons e es ih =>
    intro acc hacc
    have hstep : ∀ vi ∈ (scanStep acc e).1,
        vi.parseError = true ∨ vi.terraformVersion ≠ "" ∨ vi.providers ≠ [] := by
      intro vi hvi
      rcases scanStep_shape acc e with hsame | ⟨w, happ, hw⟩
      · rw [hsame] at hvi
        exact hacc vi hvi
      · rw [happ] at hvi
        rcases List.mem_append.mp hvi with hin | hone
        · exact hacc vi hin
        · rw [List.mem_singleton.mp hone]
          exact hw
    exact ih (scanStep acc e) hstep

/-- Claim C1 (amended): error and data are not mutually exclusive on an
    emitted record — a record from a file with parse diagnostics keeps
    the constraints recovered from the partial body alongside the error;
    what does hold is that the extractor never emits an empty record:
    every emitted record carries a parse error or at least one declared
    constraint. -/
theorem C1_record_error_or_data (entries : List FileEntry) (vi : VersionInfo)
    (hvi : vi ∈ ScanDirectory entries) :
    vi.parseError = true ∨ vi.terraformVersion ≠ "" ∨ vi.providers ≠ [] := by
  refine scanFold_error_or_data entries ([], []) ?_ vi hvi
  intro x hx
  simp at hx

/-- Witness for C1_record_error_or_data on a scan of one well-formed
    versions.tf. -/
theorem C1_record_error_or_data_witness :
    ({ filePath := "versions.tf", terraformVersion := "~> 1.16", providers := [],
       parseError := false } : VersionInfo).parseError = true ∨
    ({ filePath := "versions.tf", terraformVersion := "~> 1.16", providers := [],
       parseError := false } : VersionInfo).terraformVersion ≠ "" ∨
    ({ filePath := "versions.tf", terraformVersion := "~> 1.16", providers := [],
       parseError := false } : VersionInfo).providers ≠ [] := by
  exact C1_record_error_or_data
    [{ dir := ".", name := "versions.tf",
       outcome := { readError := false, diagsHasErrors := false, bodyAvailable := true,
                    terraformVersion := "~> 1.16", providers := [] } }]
    _ (by decide)

/-! ## Claim C2 -/

/-- Claim C2 as frozen is false: in a directory d holding both main.tf
    and versions.tf with version data, a traversal visiting main.tf first
    (the lexical WalkDir order) records BOTH files — the non-canonical
    file is only skipped once some earlier file of the directory was
    recorded, so versions.tf is not the sole source for the directory. -/
theorem C2_counterexample :
    ScanDirectory
      [{ dir := "d", name := "main.tf",
         outcome := { readError := false, diagsHasErrors := false, bodyAvailable := true,
                      terraformVersion := "~> 1.15", providers := [] } },
       { dir := "d", name := "versions.tf",
         outcome := { readError := false, diagsHasErrors := false, bodyAvailable := true,
                      terraformVersion := "~> 1.16", providers := [] } }] =
      [{ filePath := "d/main.tf", terraformVersion := "~> 1.15", providers := [],
         parseError := false },
       { filePath := "d/versions.tf", terraformVersion := "~> 1.16", providers := [],
         parseError := false }] := by decide

/-- The scan only ever appends to the results list. -/
theorem scanFold_mono (entries : List FileEntry) :
    ∀ acc : List VersionInfo × List String,
      ∃ t, (scanFold acc entries).1 = acc.1 ++ t := by
  induction entries with
  | nil => intro acc; exact ⟨[], by simp [scanFold]⟩
  | cons e es ih =>
    intro acc
    obtain ⟨t2, h2⟩ := ih (scanStep acc e)
    simp only [scanFold, List.foldl_cons] at h2 ⊢
    rcases scanStep_shape acc e with hsame | ⟨w, happ, hw⟩
    · exact ⟨t2, by rw [h2, hsame]⟩
    · exact ⟨w :: t2, by rw [h2, happ]; simp⟩

/-- A visit of a versions.tf entry whose read succeeds and whose body
    yields version data always appends its record: the canonical name is
    exempt from the seen-directory skip. -/
theorem scanStep_versions_tf (acc : List VersionInfo × List String) (e : FileEntry)
    (hname : e.name = "versions.tf") (hread : e.outcome.readError = false)
    (hbody : e.outcome.bodyAvailable = true)
    (hdata : e.outcome.terraformVersion ≠ "" ∨ e.outcome.providers ≠ []) :
    (scanStep acc e).1 = acc.1 ++
      [{ filePath := relPathOf e, terraformVersion := e.outcome.terraformVersion,
         providers := e.outcome.providers, parseError := e.outcome.diagsHasErrors }] := by
  have h1 : endsInDotTf "versions.tf" = true := by decide
  have h5 : hasVersionData
      { filePath := relPathOf e, terraformVersion := e.outcome.terraformVersion,
        providers := e.outcome.providers, parseError := e.outcome.diagsHasErrors } = true := by
    rcases hdata with h | h
    · simp [hasVersionData, bne_iff_ne, h]
    · have hne : e.outcome.providers.isEmpty = false := by
        cases hp : e.outcome.providers with
        | nil => exact absurd hp h
        | cons x xs => rfl
      simp [hasVersionData, hne]
  simp [scanStep, parseWithHCL, hname, h1, hread, hbody, h5]

/-- Claim C2 (amended): versions.tf always wins in the sense that it is
    never suppressed: every traversal entry named versions.tf whose read
    succeeds and whose body yields version data contributes its record to
    the output, in any traversal order; but it is not the sole source for
    its directory — a non-canonical candidate is skipped only when an
    earlier file of the same directory already recorded version data, so
    candidates visited before versions.tf contribute as well. -/
theorem C2_versions_tf_always_recorded (entries : List FileEntry) (e : FileEntry)
    (he : e ∈ entries) (hname : e.name = "versions.tf")
    (hread : e.outcome.readError = false) (hbody : e.outcome.bodyAvailable = true)
    (hdata : e.outcome.terraformVersion ≠ "" ∨ e.outcome.providers ≠ []) :
    ∃ vi ∈ ScanDirectory entries,
      vi.filePath = relPathOf e ∧
      vi.terraformVersion = e.outcome.terraformVersion ∧
      vi.providers = e.outcome.providers ∧
      vi.parseError = e.outcome.diagsHasErrors := by
  obtain ⟨l1, l2, rfl⟩ := List.append_of_mem he
  obtain ⟨t, ht⟩ := scanFold_mono l2 (scanStep (scanFold ([], []) l1) e)
  refine ⟨{ filePath := relPathOf e, terraformVersion := e.outcome.terraformVersion,
            providers := e.outcome.providers, parseError := e.outcome.diagsHasErrors },
          ?_, rfl, rfl, rfl, rfl⟩
  unfold ScanDirectory
  simp only [scanFold, List.foldl_append, List.foldl_cons] at ht ⊢
  rw [ht, scanStep_versions_tf _ e hname hread hbody hdata]
  simp

/-- Witness for C2_versions_tf_always_recorded on a one-file traversal. -/
theorem C2_versions_tf_always_recorded_witness :
    ∃ vi ∈ ScanDirectory
      [{ dir := "envs/dev", name := "versions.tf",
         outcome := { readError := false, diagsHasErrors := false, bodyAvailable := true,
                      terraformVersion := "~> 1.15", providers := [] } }],
      vi.filePath = relPathOf
        { dir := "envs/dev", name := "versions.tf",
          outcome := { readError := false, diagsHasErrors := false, bodyAvailable := true,
                       terraformVersion := "~> 1.15", providers := [] } } ∧
      vi.terraformVersion = "~> 1.15" ∧
      vi.providers = [] ∧
      vi.parseError = false := by
  exact C2_versions_tf_always_recorded _ _ (by decide) rfl rfl rfl (Or.inl (by decide))
